import Mathlib

/-!
Verification of the TG-TradingGame portfolio / order engine.

A shallow embedding of the trading core of `src/main.py`:
the `Portfolio` class (cash ledger, holdings, transaction log, pending
order queue), its order operations (`place_order`,
`execute_market_order`, `check_limit_orders`, `buy_stock`,
`sell_stock`, `cancel_order`), the price-tick gating of
`TradingWindow.update_prices`, the RSI part of
`Stock.update_indicators`, and the persistence functions
`save_to_file` / `load_from_file`.

Modelling conventions:
* Python floats for money and prices become `ℚ`; the claims settled here
  do not depend on binary rounding.  The one place where IEEE special
  values drive behaviour (the pandas RSI pipeline, where `0/0 = NaN`
  and `x/0 = +inf` for `x > 0`) is modelled explicitly with `RVal`.
* Python dicts (holdings) become insertion-ordered association lists
  with the exact update/delete discipline of the source.
* `datetime.now()` becomes an explicit `now : Nat` argument threaded
  into each operation (a timestamp value; its only role is to be
  stored and compared for equality).
* Order/transaction records keep the source's string-keyed fields as
  structure fields with the source's key names and string values
  (`"buy"`, `"sell"`, `"market"`, `"limit"`, `"pending"`, `"filled"`).
* A Python `KeyError` (price map missing a symbol inside
  `check_limit_orders`) is modelled by returning `none`.
-/

namespace TradingGame

/-- An order record, as built by `Portfolio.place_order` in `src/main.py`:
`{'type': …, 'symbol': …, 'shares': …, 'price': …, 'kind': …,
  'time': …, 'filled': 0, 'status': 'pending'}`. -/
structure Order where
  type : String
  symbol : String
  shares : ℤ
  price : ℚ
  kind : String
  time : Nat
  filled : ℤ
  status : String
deriving DecidableEq, Repr

/-- A transaction record, as appended by `Portfolio.buy_stock` /
`Portfolio.sell_stock` in `src/main.py`. -/
structure Transaction where
  type : String
  symbol : String
  shares : ℤ
  price : ℚ
  total : ℚ
  time : Nat
  order_type : String
deriving DecidableEq, Repr

/-- The mutable state of the `Portfolio` class: cash, the holdings dict
(symbol ↦ share count, insertion ordered), the transaction log and the
pending-order queue. -/
structure Portfolio where
  cash : ℚ
  holdings : List (String × ℤ)
  transaction_history : List Transaction
  pending_orders : List Order
deriving DecidableEq, Repr

/-- Embeds `Portfolio.__init__(initial_cash)`: empty holdings, history, queue. -/
def Portfolio.init (initial_cash : ℚ) : Portfolio :=
  ⟨initial_cash, [], [], []⟩

/-- Python dict read `d[key]` / membership `key in d`, on the
insertion-ordered association-list model (`none` = key absent). -/
def alookup {β : Type} : List (String × β) → String → Option β
  | [], _ => none
  | (k, v) :: rest, key => if k = key then some v else alookup rest key

/-- The dict update `holdings[symbol] += shares` when present,
`holdings[symbol] = shares` when absent (Python dicts update in place,
new keys are appended at the end). -/
def holdingsAdd : List (String × ℤ) → String → ℤ → List (String × ℤ)
  | [], symbol, shares => [(symbol, shares)]
  | (s, c) :: rest, symbol, shares =>
      if s = symbol then (s, c + shares) :: rest
      else (s, c) :: holdingsAdd rest symbol shares

/-- The dict update `holdings[symbol] -= shares` followed by
`del holdings[symbol]` when the count reaches zero, from
`Portfolio.sell_stock`. -/
def holdingsSubDel : List (String × ℤ) → String → ℤ → List (String × ℤ)
  | [], _, _ => []
  | (s, c) :: rest, symbol, shares =>
      if s = symbol then
        (if c - shares = 0 then rest else (s, c - shares) :: rest)
      else (s, c) :: holdingsSubDel rest symbol shares

/-- Embeds `Portfolio.buy_stock(symbol, shares, price)` from `src/main.py`:
fails (no mutation) when `shares*price > cash`; otherwise debits cash,
credits holdings and appends a `'buy'` transaction with
`order_type = 'market'`. Returns the next state with the Python
`(bool, message)` result. -/
def buy_stock (p : Portfolio) (symbol : String) (shares : ℤ) (price : ℚ)
    (now : Nat) : Portfolio × Bool × String :=
  let total_cost := shares * price
  if total_cost > p.cash then
    (p, false, "Nicht genug Geld für diesen Kauf")
  else
    ({ cash := p.cash - total_cost
       holdings := holdingsAdd p.holdings symbol shares
       transaction_history := p.transaction_history ++
         [⟨"buy", symbol, shares, price, total_cost, now, "market"⟩]
       pending_orders := p.pending_orders },
     true, "Kauf erfolgreich")

/-- Embeds `Portfolio.sell_stock(symbol, shares, price)` from `src/main.py`:
fails (no mutation) when the symbol is not held or held count is below
`shares`; otherwise credits cash, debits holdings (deleting the entry
at zero) and appends a `'sell'` transaction with
`order_type = 'market'`. -/
def sell_stock (p : Portfolio) (symbol : String) (shares : ℤ) (price : ℚ)
    (now : Nat) : Portfolio × Bool × String :=
  match alookup p.holdings symbol with
  | none => (p, false, "Nicht genug Anteile zum Verkauf")
  | some held =>
    if held < shares then
      (p, false, "Nicht genug Anteile zum Verkauf")
    else
      let total_value := shares * price
      ({ cash := p.cash + total_value
         holdings := holdingsSubDel p.holdings symbol shares
         transaction_history := p.transaction_history ++
           [⟨"sell", symbol, shares, price, total_value, now, "market"⟩]
         pending_orders := p.pending_orders },
       true, "Verkauf erfolgreich")

/-- Embeds `Portfolio.place_order(order_type, symbol, shares, price, order_kind)`
from `src/main.py`: builds the order record with `filled = 0`,
`status = 'pending'`, appends it to `pending_orders` and returns it.
There is no validation and no execution in this method. -/
def place_order (p : Portfolio) (order_type : String) (symbol : String)
    (shares : ℤ) (price : ℚ) (order_kind : String) (now : Nat) :
    Portfolio × Order :=
  let order : Order :=
    ⟨order_type, symbol, shares, price, order_kind, now, 0, "pending"⟩
  ({ p with pending_orders := p.pending_orders ++ [order] }, order)

/-- Embeds `Portfolio.execute_market_order(order)` from `src/main.py`:
dispatches on `order['type'] == 'buy'` to `buy_stock`, else to
`sell_stock`, at the order's own shares and stored price. -/
def execute_market_order (p : Portfolio) (o : Order) (now : Nat) :
    Portfolio × Bool × String :=
  if o.type = "buy" then buy_stock p o.symbol o.shares o.price now
  else sell_stock p o.symbol o.shares o.price now

/-- One iteration of the loop body of `Portfolio.check_limit_orders`
in `src/main.py`, for the order `o` against the current portfolio
money state `p`: a pending limit order looks up
`stock_prices[order['symbol']]` (`none` models the `KeyError` when the
symbol is absent); a buy triggers when the current price is `≤` the
stored price, a sell when it is `≥`; on trigger the order is executed
through `execute_market_order` — whose success result is discarded —
and the order's status is set to `'filled'` unconditionally. -/
def checkStep (stock_prices : List (String × ℚ)) (now : Nat)
    (p : Portfolio) (o : Order) : Option (Portfolio × Order) :=
  if o.kind = "limit" ∧ o.status = "pending" then
    match alookup stock_prices o.symbol with
    | none => none
    | some current_price =>
      if o.type = "buy" ∧ current_price ≤ o.price then
        some ((execute_market_order p o now).1, { o with status := "filled" })
      else if o.type = "sell" ∧ current_price ≥ o.price then
        some ((execute_market_order p o now).1, { o with status := "filled" })
      else
        some (p, o)
  else
    some (p, o)

/-- The loop of `Portfolio.check_limit_orders`, folded over the order
queue (the source iterates over a copy `self.pending_orders[:]`;
executed orders are mutated in place to `'filled'` and stay in the
queue — nothing is ever removed here). -/
def checkOrders (stock_prices : List (String × ℚ)) (now : Nat) :
    Portfolio → List Order → Option (Portfolio × List Order)
  | p, [] => some (p, [])
  | p, o :: rest =>
    match checkStep stock_prices now p o with
    | none => none
    | some (p', o') =>
      match checkOrders stock_prices now p' rest with
      | none => none
      | some (p'', rest') => some (p'', o' :: rest')

/-- Embeds `Portfolio.check_limit_orders(stock_prices)` from `src/main.py`.
`none` models the uncaught `KeyError` raised when a pending limit
order's symbol is missing from `stock_prices`. -/
def check_limit_orders (p : Portfolio) (stock_prices : List (String × ℚ))
    (now : Nat) : Option Portfolio :=
  (checkOrders stock_prices now p p.pending_orders).map
    fun r => { r.1 with pending_orders := r.2 }

/-- Embeds `TradingWindow.cancel_order` (the portfolio-mutating part) from
`src/main.py`: when the selected row is in range and that order's
status is `'pending'`, pop it from the queue; otherwise no mutation. -/
def cancel_order (p : Portfolio) (selected_row : Nat) : Portfolio :=
  match p.pending_orders.get? selected_row with
  | none => p
  | some o =>
    if o.status = "pending" then
      { p with pending_orders :=
          p.pending_orders.take selected_row ++
          p.pending_orders.drop (selected_row + 1) }
    else p

/-- The list comprehension
`[o['symbol'] for o in self.portfolio.pending_orders if o['status'] == 'pending']`
from `TradingWindow.update_prices` in `src/main.py`. -/
def pendingSymbols (orders : List Order) : List String :=
  (orders.filter fun o => o.status = "pending").map (·.symbol)

/-- Embeds `TradingWindow.update_prices` from `src/main.py`, reduced to its
scheduling decisions: first `check_limit_orders` runs against the
price snapshot, then `stock.update_price()` is called exactly for the
stocks whose symbol is *not* among the symbols of pending-status
orders.  Returns the portfolio after the limit-order sweep and the
list of symbols whose price update is invoked. -/
def update_prices (p : Portfolio) (stock_prices : List (String × ℚ))
    (symbols : List String) (now : Nat) :
    Option (Portfolio × List String) :=
  (check_limit_orders p stock_prices now).map fun p' =>
    (p', symbols.filter fun s => s ∉ pendingSymbols p'.pending_orders)

/-! RSI pipeline (`Stock.update_indicators`).

The source computes, over the list of OHLC closes:
`delta = prices.diff()`;
`gain = delta.where(delta > 0, 0).rolling(14).mean()`;
`loss = (-delta.where(delta < 0, 0)).rolling(14).mean()`;
`rs = gain / loss`; `rsi = 100 - (100 / (1 + rs))`.
`diff()` puts NaN at index 0, and `NaN > 0` / `NaN < 0` are both
false, so both `gain` and `loss` get the value `0` at index 0; the
rolling mean is NaN for indices `< 13` and the plain 14-window mean
from index 13 on.  The division is IEEE: for `loss > 0` everything is
finite rational arithmetic; for `loss = 0, gain > 0`,
`rs = +inf`, `1 + rs = +inf`, `100/+inf = 0`, so `rsi = 100`; for
`loss = 0, gain = 0`, `rs = 0/0 = NaN` and `rsi = NaN`. -/

/-- A pandas float cell as the RSI pipeline can produce it: a finite
(rational) value or NaN.  (`+inf` appears only as the intermediate
`rs`; it never survives to the RSI value, which is `100` there.) -/
inductive RVal where
  | val : ℚ → RVal
  | nan : RVal
deriving DecidableEq, Repr

/-- Computes `rsi = 100 - 100/(1 + gain/loss)` under IEEE division semantics,
for the non-negative `gain`/`loss` averages the pipeline produces:
`loss = 0, gain = 0` gives `rs = NaN`, hence NaN; `loss = 0, gain > 0`
gives `rs = +inf`, hence `100 - 100/+inf = 100`; `loss > 0` is finite
arithmetic (and `1 + gain/loss ≥ 1 > 0`, so the `ℚ` division below
agrees with IEEE). -/
def rsiFromGainLoss (gain loss : ℚ) : RVal :=
  if loss = 0 then
    if gain = 0 then .nan else .val 100
  else
    .val (100 - 100 / (1 + gain / loss))

/-- Embeds `prices.diff()` without its leading NaN: `deltas[j] =
closes[j+1] - closes[j]`. -/
def deltas (closes : List ℚ) : List ℚ :=
  List.zipWith (fun a b => a - b) closes.tail closes

/-- Embeds `delta.where(delta > 0, 0)`: index 0 (the NaN of `diff`) becomes
`0` since `NaN > 0` is false; elsewhere `max delta 0`. -/
def gains (closes : List ℚ) : List ℚ :=
  0 :: (deltas closes).map fun d => max d 0

/-- Embeds `-delta.where(delta < 0, 0)`: index 0 becomes `0`; elsewhere
`max (-delta) 0`. -/
def losses (closes : List ℚ) : List ℚ :=
  0 :: (deltas closes).map fun d => max (-d) 0

/-- The window of `rolling(window=14)` ending at index `i`:
elements `i-13 .. i`. -/
def window14 (l : List ℚ) (i : Nat) : List ℚ :=
  (l.take (i + 1)).drop (i - 13)

/-- The value of `rolling(window=14).mean()` at an index `i ≥ 13`
(below 13 the rolling mean is NaN; `rsiAt` handles that case). -/
def rollingMean14 (l : List ℚ) (i : Nat) : ℚ :=
  (window14 l i).sum / 14

/-- The RSI series entry at index `i`: NaN for `i < 13` (rolling means
not yet populated, and NaN propagates through `rs` and `rsi`),
otherwise `rsiFromGainLoss` of the 14-window gain/loss averages. -/
def rsiAt (closes : List ℚ) (i : Nat) : RVal :=
  if i < 13 then .nan
  else rsiFromGainLoss (rollingMean14 (gains closes) i)
                       (rollingMean14 (losses closes) i)

/-- Embeds `self.indicators['RSI']` as assigned by `Stock.update_indicators`
when `len(prices) >= 14`: one entry per close, index-aligned. -/
def rsiList (closes : List ℚ) : List RVal :=
  (List.range closes.length).map (rsiAt closes)

/-! Persistence (`save_to_file` / `load_from_file`).

The source serializes the portfolio as one JSON object, replacing each
record's `datetime` value by `t['time'].isoformat()` on save and
parsing it back with `datetime.fromisoformat` on load.
`json.dump`/`json.load` are exact on this value tree (dicts, lists,
strings, ints, and floats, which round-trip through their shortest
`repr`), so the file is modelled as the structured value `SaveData`
itself. -/

/-- Modelled from the spec: Python's `datetime.isoformat`, whose
output `datetime.fromisoformat` parses back to an equal `datetime`
("timestamps included, exact").  The timestamp is modelled as its
microsecond count and the ISO string as its base-10 digit encoding. -/
def isoformat (t : Nat) : List ℕ :=
  Nat.digits 10 t

/-- Modelled from the spec: Python's `datetime.fromisoformat`, the
exact inverse of `isoformat` on its outputs. -/
def fromisoformat (s : List ℕ) : Nat :=
  Nat.ofDigits 10 s

/-- A transaction record as written to the save file: `'time'` is the
ISO string, every other field is carried verbatim by `{**t, …}`. -/
structure TransactionJson where
  type : String
  symbol : String
  shares : ℤ
  price : ℚ
  total : ℚ
  time : List ℕ
  order_type : String
deriving DecidableEq, Repr

/-- An order record as written to the save file. -/
structure OrderJson where
  type : String
  symbol : String
  shares : ℤ
  price : ℚ
  kind : String
  time : List ℕ
  filled : ℤ
  status : String
deriving DecidableEq, Repr

/-- The JSON object written by `Portfolio.save_to_file`. -/
structure SaveData where
  cash : ℚ
  holdings : List (String × ℤ)
  transaction_history : List TransactionJson
  pending_orders : List OrderJson
deriving DecidableEq, Repr

/-- The per-record map `{**t, 'time': t['time'].isoformat()}` of
`save_to_file`. -/
def txToJson (t : Transaction) : TransactionJson :=
  ⟨t.type, t.symbol, t.shares, t.price, t.total, isoformat t.time,
   t.order_type⟩

/-- The per-record map `{**t, 'time': datetime.fromisoformat(t['time'])}`
of `load_from_file`. -/
def txOfJson (t : TransactionJson) : Transaction :=
  ⟨t.type, t.symbol, t.shares, t.price, t.total, fromisoformat t.time,
   t.order_type⟩

/-- The per-record map `{**o, 'time': o['time'].isoformat()}` of
`save_to_file` for pending orders. -/
def orderToJson (o : Order) : OrderJson :=
  ⟨o.type, o.symbol, o.shares, o.price, o.kind, isoformat o.time,
   o.filled, o.status⟩

/-- The per-record map `{**o, 'time': datetime.fromisoformat(o['time'])}`
of `load_from_file` for pending orders. -/
def orderOfJson (o : OrderJson) : Order :=
  ⟨o.type, o.symbol, o.shares, o.price, o.kind, fromisoformat o.time,
   o.filled, o.status⟩

/-- Embeds `Portfolio.save_to_file` from `src/main.py`: the JSON object it
writes (always including the `'pending_orders'` key, so the
`data.get('pending_orders', [])` of the loader finds it). -/
def save_to_file (p : Portfolio) : SaveData :=
  ⟨p.cash, p.holdings,
   p.transaction_history.map txToJson,
   p.pending_orders.map orderToJson⟩

/-- Embeds `Portfolio.load_from_file` from `src/main.py` on an existing file:
reassigns cash and holdings and parses each record's time back. -/
def load_from_file (d : SaveData) : Portfolio :=
  ⟨d.cash, d.holdings,
   d.transaction_history.map txOfJson,
   d.pending_orders.map orderOfJson⟩

/-! Helper lemmas. -/

/-- Reading back the key just written by the dict update of
`buy_stock`: an absent key is created with the added count, a present
key is incremented. -/
lemma alookup_holdingsAdd (h : List (String × ℤ)) (symbol : String)
    (shares : ℤ) :
    alookup (holdingsAdd h symbol shares) symbol =
      some ((alookup h symbol).getD 0 + shares) := by
  induction h with
  | nil => simp [alookup, holdingsAdd]
  | cons kv rest ih =>
    obtain ⟨k, v⟩ := kv
    by_cases hk : k = symbol
    · subst hk
      simp [alookup, holdingsAdd]
    · simp [alookup, holdingsAdd, hk, ih]

/-! Claims. -/

/-- Claim C1: For every portfolio state with cash ≥ `shares*price`,
`buy_stock` succeeds: the result flag is true, cash decreases by
exactly `shares*price`, the holding for the symbol increases by
`shares` (created with count `shares` when absent), exactly one
transaction with total `shares*price` is appended, and the pending
queue is untouched. -/
theorem buy_stock_sufficient_cash (p : Portfolio) (symbol : String)
    (shares : ℤ) (price : ℚ) (now : Nat)
    (h : shares * price ≤ p.cash) :
    (buy_stock p symbol shares price now).2.1 = true ∧
    (buy_stock p symbol shares price now).1.cash =
      p.cash - shares * price ∧
    alookup (buy_stock p symbol shares price now).1.holdings symbol =
      some ((alookup p.holdings symbol).getD 0 + shares) ∧
    (buy_stock p symbol shares price now).1.transaction_history =
      p.transaction_history ++
        [⟨"buy", symbol, shares, price, shares * price, now, "market"⟩] ∧
    (buy_stock p symbol shares price now).1.pending_orders =
      p.pending_orders := by
  have hif : ¬ (shares * price > p.cash) := not_lt.mpr h
  simp [buy_stock, hif, alookup_holdingsAdd]

/-- Witness for C1: start with cash 1000, buy 3 shares at 100. -/
theorem buy_stock_sufficient_cash_witness :
    (buy_stock (Portfolio.init 1000) "AAPL" 3 100 7).2.1 = true ∧
    (buy_stock (Portfolio.init 1000) "AAPL" 3 100 7).1.cash = 700 ∧
    alookup (buy_stock (Portfolio.init 1000) "AAPL" 3 100 7).1.holdings
      "AAPL" = some 3 ∧
    (buy_stock (Portfolio.init 1000) "AAPL" 3 100 7).1.transaction_history
      = [⟨"buy", "AAPL", 3, 100, 300, 7, "market"⟩] ∧
    (buy_stock (Portfolio.init 1000) "AAPL" 3 100 7).1.pending_orders
      = [] := by
  have h := buy_stock_sufficient_cash (Portfolio.init 1000) "AAPL" 3 100 7
    (by norm_num [Portfolio.init])
  norm_num [Portfolio.init, alookup] at h
  exact h

/-- Claim C2: A buy with insufficient cash and a sell of more shares
than held (or of a symbol not held) each return the failure flag with
the source's reason string and leave the portfolio state — cash,
holdings, transaction log, pending orders — completely unchanged. -/
theorem insufficient_resources_no_mutation (p q : Portfolio)
    (sb ss : String) (nb ns : ℤ) (pb ps : ℚ) (tb ts : Nat)
    (hbuy : p.cash < nb * pb)
    (hsell : alookup q.holdings ss = none ∨
      ∃ c, alookup q.holdings ss = some c ∧ c < ns) :
    buy_stock p sb nb pb tb =
      (p, false, "Nicht genug Geld für diesen Kauf") ∧
    sell_stock q ss ns ps ts =
      (q, false, "Nicht genug Anteile zum Verkauf") := by
  constructor
  · simp only [buy_stock, gt_iff_lt, hbuy, if_true]
  · rcases hsell with hnone | ⟨c, hc, hlt⟩
    · simp only [sell_stock, hnone]
    · simp only [sell_stock, hc, hlt, if_true]

/-- Witness for C2: cash 10 cannot buy 1 share at 100; an empty
portfolio cannot sell 1 share of AAPL. -/
theorem insufficient_resources_no_mutation_witness :
    buy_stock (Portfolio.init 10) "AAPL" 1 100 0 =
      (Portfolio.init 10, false, "Nicht genug Geld für diesen Kauf") ∧
    sell_stock (Portfolio.init 10) "AAPL" 1 100 0 =
      (Portfolio.init 10, false, "Nicht genug Anteile zum Verkauf") :=
  insufficient_resources_no_mutation (Portfolio.init 10)
    (Portfolio.init 10) "AAPL" "AAPL" 1 1 100 100 0 0
    (by norm_num [Portfolio.init]) (Or.inl rfl)

/-- Counterexample to C5: The claim says a market order never
remains `'pending'` in the queue after `place_order` returns.  In the
source, `place_order` performs no execution at all: a
`kind = 'market'` order is appended with status `'pending'` and stays
there, and no transaction is recorded. -/
theorem place_order_market_stays_pending :
    (place_order (Portfolio.init 100000) "buy" "AAPL" 1 100 "market"
      0).1.pending_orders =
      [⟨"buy", "AAPL", 1, 100, "market", 0, 0, "pending"⟩] ∧
    (place_order (Portfolio.init 100000) "buy" "AAPL" 1 100 "market"
      0).2.status = "pending" ∧
    (place_order (Portfolio.init 100000) "buy" "AAPL" 1 100 "market"
      0).1.transaction_history = [] ∧
    (place_order (Portfolio.init 100000) "buy" "AAPL" 1 100 "market"
      0).1.cash = 100000 :=
  ⟨rfl, rfl, rfl, rfl⟩

/-- Amended C5: `place_order` never executes anything: for every
kind — market included — it returns the order record with
`filled = 0` and status `'pending'`, appends it to the pending queue,
and leaves cash, holdings and the transaction log unchanged.  (Market
trades are executed by the separate `buy_stock`/`sell_stock` path,
which the UI calls directly without going through `place_order`.) -/
theorem place_order_appends_pending (p : Portfolio)
    (order_type symbol : String) (shares : ℤ) (price : ℚ)
    (order_kind : String) (now : Nat) :
    (place_order p order_type symbol shares price order_kind now).2 =
      ⟨order_type, symbol, shares, price, order_kind, now, 0,
        "pending"⟩ ∧
    (place_order p order_type symbol shares price order_kind
        now).1.pending_orders =
      p.pending_orders ++
        [⟨order_type, symbol, shares, price, order_kind, now, 0,
          "pending"⟩] ∧
    (place_order p order_type symbol shares price order_kind
        now).1.cash = p.cash ∧
    (place_order p order_type symbol shares price order_kind
        now).1.holdings = p.holdings ∧
    (place_order p order_type symbol shares price order_kind
        now).1.transaction_history = p.transaction_history :=
  ⟨rfl, rfl, rfl, rfl, rfl⟩

/-- Counterexample to C6: The claim says orders with non-positive
shares or price are rejected at `place_order` and never enter the
pending queue.  In the source, `place_order` validates nothing: an
order with 0 shares and a negative price is appended to the queue. -/
theorem place_order_accepts_nonpositive :
    (⟨"buy", "AAPL", 0, -5, "limit", 0, 0, "pending"⟩ : Order) ∈
      (place_order (Portfolio.init 100000) "buy" "AAPL" 0 (-5) "limit"
        0).1.pending_orders := by
  simp [place_order, Portfolio.init]

/-- Amended C6: `place_order` performs no parameter validation:
even with `shares ≤ 0` or `price ≤ 0` the order is appended to the
pending queue, not rejected.  (In the running program the only call
site feeds it values from UI controls with minimum 1 share and minimum
price 0.01, which is where positivity is actually enforced.) -/
theorem place_order_no_validation (p : Portfolio)
    (order_type symbol : String) (shares : ℤ) (price : ℚ)
    (order_kind : String) (now : Nat)
    (_h : shares ≤ 0 ∨ price ≤ 0) :
    (place_order p order_type symbol shares price order_kind
        now).1.pending_orders =
      p.pending_orders ++
        [⟨order_type, symbol, shares, price, order_kind, now, 0,
          "pending"⟩] :=
  rfl

/-- Witness for the amended C6: an order with 0 shares at price −5 is
appended. -/
theorem place_order_no_validation_witness :
    (place_order (Portfolio.init 7) "sell" "TSLA" 0 (-5) "limit"
        0).1.pending_orders =
      [⟨"sell", "TSLA", 0, -5, "limit", 0, 0, "pending"⟩] := by
  have h := place_order_no_validation (Portfolio.init 7) "sell" "TSLA"
    0 (-5) "limit" 0 (Or.inl le_rfl)
  simpa [Portfolio.init] using h

/-- Code bug C4: A triggered limit buy whose execution fails is
nevertheless marked `'filled'`: with cash 0, a pending limit buy of 1
share at 100 triggers at tick price 50, `buy_stock` fails (100 > 0)
and appends no transaction, yet `check_limit_orders` ignores the
failure result and sets the order's status to `'filled'` anyway. -/
theorem check_limit_orders_fills_failed_execution :
    check_limit_orders
      ⟨0, [], [], [⟨"buy", "AAPL", 1, 100, "limit", 0, 0, "pending"⟩]⟩
      [("AAPL", 50)] 1 =
    some ⟨0, [], [],
      [⟨"buy", "AAPL", 1, 100, "limit", 0, 0, "filled"⟩]⟩ := by
  norm_num [check_limit_orders, checkOrders, checkStep,
    execute_market_order, buy_stock, alookup]

/-- Membership in the pending-symbol comprehension of
`update_prices`. -/
lemma mem_pendingSymbols (orders : List Order) (s : String) :
    s ∈ pendingSymbols orders ↔
      ∃ o ∈ orders, o.status = "pending" ∧ o.symbol = s := by
  simp only [pendingSymbols, List.mem_map, List.mem_filter,
    decide_eq_true_eq]
  tauto

/-- Counterexample to C8: The claim says a pending order anywhere in
the book freezes every symbol's price.  In the source the gate is
per symbol: with a pending limit order for AAPL (not triggering at
tick price 150), AAPL's symbol is in the pending list, yet MSFT still
advances on the tick. -/
theorem update_prices_advances_other_symbols :
    pendingSymbols
      [⟨"buy", "AAPL", 1, 100, "limit", 0, 0, "pending"⟩] =
      ["AAPL"] ∧
    (update_prices
      ⟨0, [], [], [⟨"buy", "AAPL", 1, 100, "limit", 0, 0, "pending"⟩]⟩
      [("AAPL", 150)] ["AAPL", "MSFT"] 0).elim [] Prod.snd =
      ["MSFT"] := by
  constructor
  · rfl
  · simp +decide [update_prices, check_limit_orders, checkOrders,
      checkStep, alookup, pendingSymbols]

/-- Amended C8: On a tick, a symbol's price update is invoked
exactly when there is no pending-status order *for that same symbol*;
pending orders for other symbols do not block it. -/
theorem update_prices_gate (p : Portfolio)
    (stock_prices : List (String × ℚ)) (symbols : List String)
    (now : Nat) (p' : Portfolio) (adv : List String)
    (h : update_prices p stock_prices symbols now = some (p', adv))
    (s : String) :
    s ∈ adv ↔ s ∈ symbols ∧
      ∀ o ∈ p'.pending_orders, o.status = "pending" → o.symbol ≠ s := by
  obtain ⟨q, hq, heq⟩ := Option.map_eq_some'.mp h
  obtain ⟨rfl, rfl⟩ := Prod.mk.injEq .. ▸ heq
  simp only [List.mem_filter, decide_eq_true_eq, mem_pendingSymbols]
  push_neg
  simp [and_comm, imp_iff_not_or, not_and, eq_comm]

/-- Witness for the amended C8: MSFT advances while AAPL has the only
pending order. -/
theorem update_prices_gate_witness :
    "MSFT" ∈ (update_prices
      ⟨0, [], [], [⟨"buy", "AAPL", 1, 100, "limit", 0, 0, "pending"⟩]⟩
      [("AAPL", 150)] ["AAPL", "MSFT"] 0).elim [] Prod.snd := by
  have heq : update_prices
      ⟨0, [], [], [⟨"buy", "AAPL", 1, 100, "limit", 0, 0, "pending"⟩]⟩
      [("AAPL", 150)] ["AAPL", "MSFT"] 0 =
      some (⟨0, [], [],
        [⟨"buy", "AAPL", 1, 100, "limit", 0, 0, "pending"⟩]⟩,
        ["MSFT"]) := by
    simp +decide [update_prices, check_limit_orders, checkOrders,
      checkStep, alookup, pendingSymbols]
  rw [heq, Option.elim]
  refine (update_prices_gate _ _ _ _ _ _ heq "MSFT").mpr ⟨by simp, ?_⟩
  intro o ho hst
  simp only [List.mem_singleton] at ho
  subst ho
  simp

/-- Claim C3: For a pending limit order `o` in the book and a price map
containing `o`'s symbol at value `cp`: the sweep executes `o` exactly
when (`o` is a buy and `cp ≤ o.price`) or (`o` is a sell and
`o.price ≤ cp`); on no trigger nothing changes; and a triggered limit
buy with sufficient cash debits cash by exactly
`o.shares * o.price` — the order's stored reference price, not the
tick price `cp` — and credits holdings by `o.shares`. -/
theorem check_limit_orders_trigger (cash : ℚ)
    (hld : List (String × ℤ)) (txs : List Transaction) (o : Order)
    (stock_prices : List (String × ℚ)) (cp : ℚ) (now : Nat)
    (hkind : o.kind = "limit") (hstat : o.status = "pending")
    (hcp : alookup stock_prices o.symbol = some cp) :
    (((o.type = "buy" ∧ cp ≤ o.price) ∨
      (o.type = "sell" ∧ o.price ≤ cp)) →
      check_limit_orders ⟨cash, hld, txs, [o]⟩ stock_prices now =
        some { (execute_market_order ⟨cash, hld, txs, [o]⟩ o now).1
          with pending_orders := [{ o with status := "filled" }] }) ∧
    (¬ ((o.type = "buy" ∧ cp ≤ o.price) ∨
      (o.type = "sell" ∧ o.price ≤ cp)) →
      check_limit_orders ⟨cash, hld, txs, [o]⟩ stock_prices now =
        some ⟨cash, hld, txs, [o]⟩) ∧
    (o.type = "buy" → cp ≤ o.price → o.shares * o.price ≤ cash →
      (check_limit_orders ⟨cash, hld, txs, [o]⟩ stock_prices now).map
          Portfolio.cash = some (cash - o.shares * o.price) ∧
      (check_limit_orders ⟨cash, hld, txs, [o]⟩ stock_prices now).map
          (fun q => alookup q.holdings o.symbol) =
        some (some ((alookup hld o.symbol).getD 0 + o.shares))) := by
  refine ⟨?_, ?_, ?_⟩
  · rintro (⟨hb, hle⟩ | ⟨hs, hge⟩)
    · simp [check_limit_orders, checkOrders, checkStep, hkind, hstat,
        hcp, hb, hle]
    · simp [check_limit_orders, checkOrders, checkStep, hkind, hstat,
        hcp, hs, hge]
  · intro hnot
    rw [not_or] at hnot
    obtain ⟨h1, h2⟩ := hnot
    simp [check_limit_orders, checkOrders, checkStep, hkind, hstat,
      hcp, h1, h2]
  · intro hb hle hcash
    have hif : ¬ (o.shares * o.price > cash) := not_lt.mpr hcash
    simp [check_limit_orders, checkOrders, checkStep, hkind, hstat,
      hcp, hb, hle, execute_market_order, buy_stock, hif,
      alookup_holdingsAdd]

/-- Witness for C3: a limit buy of 2 shares at 100, triggered by tick
price 90 with cash 1000, fills at the stored price 100 — cash becomes
800 (not 820) and the holding becomes 2. -/
theorem check_limit_orders_trigger_witness :
    (check_limit_orders
      ⟨1000, [], [], [⟨"buy", "AAPL", 2, 100, "limit", 5, 0,
        "pending"⟩]⟩ [("AAPL", 90)] 3).map Portfolio.cash =
      some 800 ∧
    (check_limit_orders
      ⟨1000, [], [], [⟨"buy", "AAPL", 2, 100, "limit", 5, 0,
        "pending"⟩]⟩ [("AAPL", 90)] 3).map
        (fun q => alookup q.holdings "AAPL") = some (some 2) := by
  have h := (check_limit_orders_trigger 1000 [] []
    ⟨"buy", "AAPL", 2, 100, "limit", 5, 0, "pending"⟩
    [("AAPL", 90)] 90 3 rfl rfl (by simp [alookup])).2.2
    rfl (by norm_num) (by norm_num)
  constructor
  · convert h.1 using 2
    norm_num
  · convert h.2 using 2

/-- Record-level round trip for transactions: parsing the saved time
string recovers the original record. -/
lemma txOfJson_txToJson (t : Transaction) : txOfJson (txToJson t) = t := by
  cases t
  simp [txOfJson, txToJson, fromisoformat, isoformat,
    Nat.ofDigits_digits]

/-- Record-level round trip for pending orders. -/
lemma orderOfJson_orderToJson (o : Order) :
    orderOfJson (orderToJson o) = o := by
  cases o
  simp [orderOfJson, orderToJson, fromisoformat, isoformat,
    Nat.ofDigits_digits]

/-- The save/load round trip is the identity on portfolio state. -/
lemma load_save_eq (p : Portfolio) :
    load_from_file (save_to_file p) = p := by
  cases p
  simp [load_from_file, save_to_file, List.map_map, Function.comp_def,
    txOfJson_txToJson, orderOfJson_orderToJson]

/-- Claim C9: Saving the portfolio and loading the resulting file yields
identical cash, holdings, transaction history and pending orders,
timestamps included. -/
theorem save_load_roundtrip (p : Portfolio) :
    load_from_file (save_to_file p) = p :=
  load_save_eq p

/-- Every entry of the gain series is non-negative. -/
lemma gains_nonneg (closes : List ℚ) : ∀ x ∈ gains closes, 0 ≤ x := by
  intro x hx
  simp only [gains, List.mem_cons, List.mem_map] at hx
  rcases hx with rfl | ⟨d, _, rfl⟩
  · exact le_refl 0
  · exact le_max_right d 0

/-- Every entry of the loss series is non-negative. -/
lemma losses_nonneg (closes : List ℚ) : ∀ x ∈ losses closes, 0 ≤ x := by
  intro x hx
  simp only [losses, List.mem_cons, List.mem_map] at hx
  rcases hx with rfl | ⟨d, _, rfl⟩
  · exact le_refl 0
  · exact le_max_right (-d) 0

/-- A 14-window rolling mean of a non-negative series is
non-negative. -/
lemma rollingMean14_nonneg (l : List ℚ) (hl : ∀ x ∈ l, 0 ≤ x)
    (i : Nat) : 0 ≤ rollingMean14 l i := by
  have hs : 0 ≤ (window14 l i).sum := by
    refine List.sum_nonneg ?_
    intro x hx
    exact hl x (List.mem_of_mem_take (List.mem_of_mem_drop hx))
  exact div_nonneg hs (by norm_num)

/-- Case analysis of the RSI formula for non-negative gain/loss
averages: NaN when both vanish, 100 when only the loss vanishes, and
a finite value in [0,100] otherwise. -/
lemma rsiFromGainLoss_spec (g l : ℚ) (hg : 0 ≤ g) (hl : 0 ≤ l) :
    (rsiFromGainLoss g l = RVal.nan ∨
      ∃ q, rsiFromGainLoss g l = RVal.val q ∧ 0 ≤ q ∧ q ≤ 100) ∧
    (l = 0 → g = 0 → rsiFromGainLoss g l = RVal.nan) ∧
    (l = 0 → 0 < g → rsiFromGainLoss g l = RVal.val 100) := by
  by_cases hl0 : l = 0
  · subst hl0
    by_cases hg0 : g = 0
    · subst hg0
      exact ⟨Or.inl rfl, fun _ _ => rfl, fun _ h => absurd h (by simp)⟩
    · refine ⟨Or.inr ⟨100, ?_, by norm_num, le_rfl⟩, ?_, ?_⟩
      · simp [rsiFromGainLoss, hg0]
      · intro _ h; exact absurd h hg0
      · intro _ _; simp [rsiFromGainLoss, hg0]
  · have hlpos : 0 < l := lt_of_le_of_ne hl (Ne.symm hl0)
    have hrs : 0 ≤ g / l := div_nonneg hg hl
    have h1 : (1 : ℚ) ≤ 1 + g / l := by linarith
    have hfr1 : 0 < 100 / (1 + g / l) := by positivity
    have hfr2 : 100 / (1 + g / l) ≤ 100 :=
      div_le_self (by norm_num) h1
    refine ⟨Or.inr ⟨100 - 100 / (1 + g / l), ?_, by linarith,
      by linarith⟩, ?_, ?_⟩
    · simp [rsiFromGainLoss, hl0]
    · intro h; exact absurd h hl0
    · intro h; exact absurd h hl0

/-- Amended C7: Every populated RSI entry (index ≥ 13) is either
NaN or a finite value in [0,100].  When the trailing 14-window average
loss is 0, the RSI is 100 only if the average gain is positive; when
the trailing gains also average 0 (all 14 trailing deltas zero), the
RSI is NaN, not 100. -/
theorem rsi_range (closes : List ℚ) (i : Nat) (r : RVal)
    (hr : (rsiList closes).get? i = some r) (h13 : 13 ≤ i) :
    (r = RVal.nan ∨ ∃ q, r = RVal.val q ∧ 0 ≤ q ∧ q ≤ 100) ∧
    (rollingMean14 (losses closes) i = 0 →
      (rollingMean14 (gains closes) i = 0 → r = RVal.nan) ∧
      (0 < rollingMean14 (gains closes) i → r = RVal.val 100)) := by
  have hi : i < closes.length := by
    by_contra hge
    rw [rsiList] at hr
    rw [List.get?_eq_none.mpr (by simpa using hge)] at hr
    exact Option.noConfusion hr
  have hval : r = rsiAt closes i := by
    rw [rsiList, List.get?_map, List.get?_range hi] at hr
    exact (Option.some.inj hr).symm
  have hnot : ¬ i < 13 := not_lt.mpr h13
  have hspec := rsiFromGainLoss_spec
    (rollingMean14 (gains closes) i) (rollingMean14 (losses closes) i)
    (rollingMean14_nonneg _ (gains_nonneg closes) i)
    (rollingMean14_nonneg _ (losses_nonneg closes) i)
  rw [hval, rsiAt, if_neg hnot]
  refine ⟨hspec.1, fun hloss => ⟨fun hgain => ?_, fun hgain => ?_⟩⟩
  · exact hspec.2.1 hloss hgain
  · exact hspec.2.2 hloss hgain

/-- Witness for the amended C7: on a strictly increasing close series
the populated RSI value at index 14 is exactly 100 (losses average 0,
gains average positive). -/
theorem rsi_range_witness :
    ((rsiList [1, 2, 3, 4, 5, 6, 7, 8, 9, 10, 11, 12, 13, 14,
      (15 : ℚ)]).get? 14 = some (RVal.val 100)) := by
  have h := (rsi_range
    [1, 2, 3, 4, 5, 6, 7, 8, 9, 10, 11, 12, 13, 14, (15 : ℚ)] 14
    (rsiAt [1, 2, 3, 4, 5, 6, 7, 8, 9, 10, 11, 12, 13, 14, (15 : ℚ)]
      14)
    (by rfl) (by norm_num)).2
  have hval := (h (by norm_num [rollingMean14, window14, losses,
    deltas, List.zipWith])).2 (by norm_num [rollingMean14, window14,
    gains, deltas, List.zipWith])
  rw [show ((rsiList [1, 2, 3, 4, 5, 6, 7, 8, 9, 10, 11, 12, 13, 14,
    (15 : ℚ)]).get? 14) = some (rsiAt [1, 2, 3, 4, 5, 6, 7, 8, 9, 10,
    11, 12, 13, 14, (15 : ℚ)] 14) from rfl, hval]

/-- Counterexample to C7: On a constant close series every trailing
delta is zero, so the trailing average loss is 0 — but the populated
RSI value is NaN (pandas: `rs = 0/0 = NaN`), not 100 and not a value
in [0,100]. -/
theorem rsi_nan_on_constant_series :
    rollingMean14 (losses [100, 100, 100, 100, 100, 100, 100, 100,
      100, 100, 100, 100, 100, 100, (100 : ℚ)]) 14 = 0 ∧
    (rsiList [100, 100, 100, 100, 100, 100, 100, 100, 100, 100, 100,
      100, 100, 100, (100 : ℚ)]).get? 14 = some RVal.nan ∧
    RVal.nan ≠ RVal.val 100 := by
  refine ⟨by norm_num [rollingMean14, window14, losses, deltas,
    List.zipWith], ?_, by simp⟩
  norm_num [rsiList, rsiAt, rsiFromGainLoss, rollingMean14, window14,
    losses, gains, deltas, List.zipWith, List.range_succ]

/-- Transactions present after `buy_stock` are either inherited or
carry order_type `'market'`. -/
lemma buy_stock_order_type (p : Portfolio) (symbol : String)
    (shares : ℤ) (price : ℚ) (now : Nat) :
    ∀ t ∈ (buy_stock p symbol shares price now).1.transaction_history,
      t ∈ p.transaction_history ∨ t.order_type = "market" := by
  intro t ht
  by_cases h : shares * price > p.cash
  · simp only [buy_stock, if_pos h] at ht
    exact Or.inl ht
  · simp only [buy_stock, if_neg h, List.mem_append,
      List.mem_singleton] at ht
    rcases ht with ht | rfl
    · exact Or.inl ht
    · exact Or.inr rfl

/-- Transactions present after `sell_stock` are either inherited or
carry order_type `'market'`. -/
lemma sell_stock_order_type (p : Portfolio) (symbol : String)
    (shares : ℤ) (price : ℚ) (now : Nat) :
    ∀ t ∈ (sell_stock p symbol shares price now).1.transaction_history,
      t ∈ p.transaction_history ∨ t.order_type = "market" := by
  intro t ht
  simp only [sell_stock] at ht
  cases halook : alookup p.holdings symbol with
  | none =>
    rw [halook] at ht
    exact Or.inl ht
  | some held =>
    rw [halook] at ht
    by_cases hlt : held < shares
    · simp only [if_pos hlt] at ht
      exact Or.inl ht
    · simp only [if_neg hlt, List.mem_append, List.mem_singleton] at ht
      rcases ht with ht | rfl
      · exact Or.inl ht
      · exact Or.inr rfl

/-- Transactions present after `execute_market_order` are either
inherited or carry order_type `'market'`. -/
lemma execute_market_order_order_type (p : Portfolio) (o : Order)
    (now : Nat) :
    ∀ t ∈ (execute_market_order p o now).1.transaction_history,
      t ∈ p.transaction_history ∨ t.order_type = "market" := by
  intro t ht
  rw [execute_market_order] at ht
  by_cases hb : o.type = "buy"
  · rw [if_pos hb] at ht
    exact buy_stock_order_type p o.symbol o.shares o.price now t ht
  · rw [if_neg hb] at ht
    exact sell_stock_order_type p o.symbol o.shares o.price now t ht

/-- One limit-order sweep step only adds `'market'` transactions. -/
lemma checkStep_order_type (stock_prices : List (String × ℚ))
    (now : Nat) (p p' : Portfolio) (o o' : Order)
    (h : checkStep stock_prices now p o = some (p', o')) :
    ∀ t ∈ p'.transaction_history,
      t ∈ p.transaction_history ∨ t.order_type = "market" := by
  intro t ht
  rw [checkStep] at h
  by_cases hc : o.kind = "limit" ∧ o.status = "pending"
  · rw [if_pos hc] at h
    cases halook : alookup stock_prices o.symbol with
    | none =>
      rw [halook] at h
      exact absurd h (by simp)
    | some cp =>
      rw [halook] at h
      dsimp only at h
      by_cases h1 : o.type = "buy" ∧ cp ≤ o.price
      · rw [if_pos h1] at h
        obtain ⟨h5, -⟩ := Prod.mk.inj (Option.some.inj h)
        subst h5
        exact execute_market_order_order_type p o now t ht
      · rw [if_neg h1] at h
        by_cases h2 : o.type = "sell" ∧ cp ≥ o.price
        · rw [if_pos h2] at h
          obtain ⟨h5, -⟩ := Prod.mk.inj (Option.some.inj h)
          subst h5
          exact execute_market_order_order_type p o now t ht
        · rw [if_neg h2] at h
          obtain ⟨h5, -⟩ := Prod.mk.inj (Option.some.inj h)
          subst h5
          exact Or.inl ht
  · rw [if_neg hc] at h
    obtain ⟨h5, -⟩ := Prod.mk.inj (Option.some.inj h)
    subst h5
    exact Or.inl ht

/-- The limit-order sweep loop only adds `'market'` transactions. -/
lemma checkOrders_order_type (stock_prices : List (String × ℚ))
    (now : Nat) (os : List Order) :
    ∀ (p p' : Portfolio) (os' : List Order),
      checkOrders stock_prices now p os = some (p', os') →
      ∀ t ∈ p'.transaction_history,
        t ∈ p.transaction_history ∨ t.order_type = "market" := by
  induction os with
  | nil =>
    intro p p' os' h t ht
    simp only [checkOrders, Option.some.injEq, Prod.mk.injEq] at h
    obtain ⟨rfl, rfl⟩ := h
    exact Or.inl ht
  | cons o rest ih =>
    intro p p' os' h t ht
    simp only [checkOrders] at h
    cases hs : checkStep stock_prices now p o with
    | none =>
      rw [hs] at h
      cases h
    | some po =>
      obtain ⟨p1, o1⟩ := po
      rw [hs] at h
      dsimp only at h
      cases hrest : checkOrders stock_prices now p1 rest with
      | none =>
        rw [hrest] at h
        cases h
      | some pr =>
        obtain ⟨p2, os2⟩ := pr
        rw [hrest] at h
        simp only [Option.some.injEq, Prod.mk.injEq] at h
        obtain ⟨rfl, rfl⟩ := h
        rcases ih p1 p2 os2 hrest t ht with h2 | h2
        · exact checkStep_order_type stock_prices now p p1 o o1 hs t h2
        · exact Or.inr h2

/-- The whole limit-order sweep only adds `'market'` transactions. -/
lemma check_limit_orders_order_type (p : Portfolio)
    (stock_prices : List (String × ℚ)) (now : Nat) (p' : Portfolio)
    (h : check_limit_orders p stock_prices now = some p') :
    ∀ t ∈ p'.transaction_history,
      t ∈ p.transaction_history ∨ t.order_type = "market" := by
  obtain ⟨r, hr, heq⟩ := Option.map_eq_some'.mp h
  obtain ⟨p1, os1⟩ := r
  subst heq
  intro t ht
  exact checkOrders_order_type stock_prices now p.pending_orders
    p p1 os1 hr t ht

/-- Cancellation touches only the pending queue. -/
lemma cancel_order_transaction_history (p : Portfolio) (i : Nat) :
    (cancel_order p i).transaction_history = p.transaction_history := by
  unfold cancel_order
  cases hgo : p.pending_orders.get? i with
  | none => rfl
  | some o =>
    dsimp only
    by_cases h : o.status = "pending"
    · rw [if_pos h]
    · rw [if_neg h]

/-- Portfolio states reachable in the program: a fresh portfolio
mutated by the market buy/sell path, order placement, the limit-order
sweep, cancellation, and save/load round trips. -/
inductive Reachable : Portfolio → Prop where
  | init (initial_cash : ℚ) : Reachable (Portfolio.init initial_cash)
  | buy (p : Portfolio) (symbol : String) (shares : ℤ) (price : ℚ)
      (now : Nat) : Reachable p →
      Reachable (buy_stock p symbol shares price now).1
  | sell (p : Portfolio) (symbol : String) (shares : ℤ) (price : ℚ)
      (now : Nat) : Reachable p →
      Reachable (sell_stock p symbol shares price now).1
  | place (p : Portfolio) (order_type symbol : String) (shares : ℤ)
      (price : ℚ) (order_kind : String) (now : Nat) : Reachable p →
      Reachable (place_order p order_type symbol shares price
        order_kind now).1
  | check (p p' : Portfolio) (stock_prices : List (String × ℚ))
      (now : Nat) : Reachable p →
      check_limit_orders p stock_prices now = some p' → Reachable p'
  | cancel (p : Portfolio) (selected_row : Nat) : Reachable p →
      Reachable (cancel_order p selected_row)
  | load (p : Portfolio) : Reachable p →
      Reachable (load_from_file (save_to_file p))

/-- Claim C10: In every reachable portfolio state, every transaction in
the log carries order_type `'market'` — including transactions
produced by triggered limit orders via `check_limit_orders`; no
transaction ever has order_type `'limit'`. -/
theorem transactions_all_market (p : Portfolio) (h : Reachable p) :
    ∀ t ∈ p.transaction_history, t.order_type = "market" := by
  induction h with
  | init c =>
    intro t ht
    simp [Portfolio.init] at ht
  | buy q symbol shares price now _ ih =>
    intro t ht
    rcases buy_stock_order_type q symbol shares price now t ht with
      h2 | h2
    · exact ih t h2
    · exact h2
  | sell q symbol shares price now _ ih =>
    intro t ht
    rcases sell_stock_order_type q symbol shares price now t ht with
      h2 | h2
    · exact ih t h2
    · exact h2
  | place q order_type symbol shares price order_kind now _ ih =>
    intro t ht
    exact ih t ht
  | check q q' stock_prices now _ hck ih =>
    intro t ht
    rcases check_limit_orders_order_type q stock_prices now q' hck
      t ht with h2 | h2
    · exact ih t h2
    · exact h2
  | cancel q i _ ih =>
    intro t ht
    rw [cancel_order_transaction_history] at ht
    exact ih t ht
  | load q _ ih =>
    rw [load_save_eq]
    exact ih

/-- Witness for C10: after one market buy from a fresh portfolio,
every logged transaction has order_type 'market'. -/
theorem transactions_all_market_witness :
    ((buy_stock (Portfolio.init 1000) "AAPL" 1 10
      0).1.transaction_history.all
        fun t => t.order_type == "market") = true := by
  have h := transactions_all_market
    (buy_stock (Portfolio.init 1000) "AAPL" 1 10 0).1
    (Reachable.buy (Portfolio.init 1000) "AAPL" 1 10 0
      (Reachable.init 1000))
  rw [List.all_eq_true]
  intro t ht
  exact beq_iff_eq.mpr (h t ht)

end TradingGame
